import Mathlib

/-!
# Verification of the SandboxBridge cross-context communication gateway

Shallow embedding of `src/GlobalResourceHub.js` (the `SandboxBridge` class,
lines 518-891), together with the `UniCanvasError` shape it throws.

Modelling conventions:
* JavaScript structured values are modelled by the mutual inductive
  `Value`/`Fields` (null, booleans, integers, strings, objects).  Function
  values and cyclic references are outside the transport's serializable
  fragment and are not modelled.
* JavaScript truthiness is `Value.truthy`; `a || b` on values is `jsOr`;
  numeric coercion (`ToNumber`) is `Value.toNumber`, with `none` standing
  for `NaN` — note `NaN < x` and `NaN > x` are both false in JS, which
  `_validateMessage`'s age check inherits.
* A raw inbound `event.data` is `Option Msg`: `none` models a non-object
  datum, and inside `Msg` an absent/empty string field is `""`; the raw
  `timestamp` field is an arbitrary `Value` (an absent one is `vnull`).
* Wall-clock time (`Date.now()`) is an explicit `now : Int` parameter.
* A JS string's `.length` is its count of UTF-16 code units, `utf16Length`
  here (astral codepoints count 2); `utf8Length` is the byte length of the
  same text, a different quantity.
* The random suffix of `_generateMessageId` is environment randomness and is
  dropped from the id; the monotonic counter and the timestamp are kept.
* `window.parent.postMessage`, promise settlement, `console.error`, handler
  invocation and the write into `pendingResponses` are observable actions,
  emitted in program order as an `Output` trace.
-/

mutual
/-- JavaScript structured (JSON-like) values, mutually with object field
lists. -/
inductive Value where
  | vnull : Value
  | vbool : Bool → Value
  | vnum : Int → Value
  | vstr : String → Value
  | vobj : Fields → Value
/-- Ordered field list of a JavaScript object. -/
inductive Fields where
  | nil : Fields
  | cons : String → Value → Fields → Fields
end

/-- JavaScript truthiness of a `Value` (`!v` in the source is `!v.truthy`):
`null`, `false`, `0` and `""` are falsy; every object is truthy. -/
def Value.truthy : Value → Bool
  | .vnull => false
  | .vbool b => b
  | .vnum n => !(n == 0)
  | .vstr s => !(s == "")
  | .vobj _ => true

/-- JavaScript `a || b` on structured values. -/
def jsOr (a b : Value) : Value := if a.truthy then a else b

/-- Field lookup in an object field list (first binding wins, as in a JS
object literal read). -/
def Fields.lookup : Fields → String → Option Value
  | .nil, _ => none
  | .cons k v rest, key => if k == key then some v else rest.lookup key

/-- JavaScript property access `v.key`: `undefined` (modelled by `vnull`)
when `v` is not an object or lacks the field. -/
def Value.getField (v : Value) (key : String) : Value :=
  match v with
  | .vobj fs =>
    match fs.lookup key with
    | some w => w
    | none => .vnull
  | _ => .vnull

/-- Decimal value of a non-empty all-digit character list, `none`
otherwise. -/
def digitsToNat? (cs : List Char) : Option Nat :=
  if cs.isEmpty then none
  else cs.foldl (fun acc c =>
    match acc with
    | none => none
    | some n =>
      if c.toNat ≥ 48 && c.toNat ≤ 57 then some (n * 10 + (c.toNat - 48))
      else none) (some 0)

/-- Numeric reading of a string, for the modelled fragment of JS string →
number coercion: an optionally signed decimal integer literal; any other
string (e.g. `"abc"`) coerces to `NaN`, here `none`.  (Fractions, hex
literals and surrounding whitespace are outside the modelled fragment.) -/
def parseIntLit (s : String) : Option Int :=
  match s.toList with
  | '-' :: rest => (digitsToNat? rest).map (fun n => -(n : Int))
  | '+' :: rest => (digitsToNat? rest).map (fun n => (n : Int))
  | cs => (digitsToNat? cs).map (fun n => (n : Int))

/-- JS `ToNumber` on the modelled values, as the subtraction
`Date.now() - message.timestamp` applies it: `null` is 0, booleans are 0/1,
numbers are themselves, strings read as integer literals (else `NaN`), and
a plain object is `NaN`.  `none` stands for `NaN`. -/
def Value.toNumber : Value → Option Int
  | .vnull => some 0
  | .vbool b => some (if b then 1 else 0)
  | .vnum n => some n
  | .vstr s => parseIntLit s
  | .vobj _ => none

/-- Hexadecimal digit for JSON control-character escapes. -/
def hexDigit (n : Nat) : Char :=
  if n < 10 then Char.ofNat (48 + n) else Char.ofNat (87 + n)

/-- JSON escaping of one character, exactly as `JSON.stringify` performs
it: the two-character escapes `\"`, `\\`, `\b`, `\f`, `\n`, `\r`, `\t`,
`\u00XX` for the remaining control characters below `0x20`, and every
other character verbatim. -/
def escapeJsonChar (c : Char) : String :=
  if c = '"' then "\\\""
  else if c = '\\' then "\\\\"
  else if c = '\x08' then "\\b"
  else if c = '\x0c' then "\\f"
  else if c = '\n' then "\\n"
  else if c = '\r' then "\\r"
  else if c = '\t' then "\\t"
  else if c.toNat < 32 then
    "\\u00" ++ String.singleton (hexDigit (c.toNat / 16))
      ++ String.singleton (hexDigit (c.toNat % 16))
  else String.singleton c

/-- JSON escaping of a string body. -/
def escapeJson (s : String) : String :=
  s.toList.foldl (fun acc c => acc ++ escapeJsonChar c) ""

/-- The length of a string as JavaScript's `.length` reports it: the
number of UTF-16 code units — codepoints at `0x10000` and above are
surrogate pairs and count 2.  This, not the byte length, is what
`JSON.stringify(message).length` measures. -/
def utf16Length (s : String) : Nat :=
  s.toList.foldl (fun acc c => acc + (if c.toNat < 65536 then 1 else 2)) 0

/-- The UTF-8 byte length of a string: the "serialized byte length" the
spec's wording names, which differs from the code's UTF-16-unit measure on
any non-ASCII text. -/
def utf8Length (s : String) : Nat :=
  s.toList.foldl (fun acc c => acc +
    (if c.toNat < 128 then 1
     else if c.toNat < 2048 then 2
     else if c.toNat < 65536 then 3
     else 4)) 0

mutual
/-- `JSON.stringify` on the modelled value fragment; the bridge measures
`JSON.stringify(message).length` against `maxMessageSize`. -/
def Value.stringify : Value → String
  | .vnull => "null"
  | .vbool true => "true"
  | .vbool false => "false"
  | .vnum n => toString n
  | .vstr s => "\"" ++ escapeJson s ++ "\""
  | .vobj fs => "\x7b" ++ Fields.stringify fs ++ "\x7d"
/-- Serialization of an object body, fields comma-separated. -/
def Fields.stringify : Fields → String
  | .nil => ""
  | .cons k v .nil => "\"" ++ escapeJson k ++ "\":" ++ Value.stringify v
  | .cons k v (.cons k' v' rest) =>
    "\"" ++ escapeJson k ++ "\":" ++ Value.stringify v ++ ","
      ++ Fields.stringify (.cons k' v' rest)
end

/-- The `UniCanvasError` shape (`code`, `message`) thrown synchronously by
the bridge's public methods. -/
structure UniErr where
  code : String
  msg : String
deriving Repr, DecidableEq

/-- A message envelope as transported (wire format of §6): request fields
plus the response-variant fields.  In a request, `responseToId` is `""`,
`isResponse` is `false` and `status` is unused.  `timestamp` is kept as a
raw `Value` because an inbound message may carry anything there (the
bridge's own envelopes stamp a number, `vnum now`), and
`_validateMessage`'s age arithmetic depends on its JS numeric coercion. -/
structure Msg where
  id : String
  timestamp : Value
  source : String
  target : String
  payload : Value
  requiresResponse : Bool
  isResponse : Bool
  responseToId : String
  status : String

/-! ## Origin policy (`_isOriginAllowed`, lines 860-887)

The code compiles a pattern containing `*` to
`new RegExp('^' + pattern.replace(/\*/g, '.*') + '$')` and tests the origin
against it.  Only `*` is rewritten; nothing is escaped, so every regex
metacharacter of the pattern stays live: `.` is the any-character, and
`+ ? ( ) [ ] \x7b \x7d | ^ $ \` keep their regex meanings (a malformed
pattern such as `(*` even makes the `RegExp` constructor throw).  The
tokenizer below models the compiled regex on the fragment of patterns
whose characters besides `*` and `.` are regex-literal (`SimplePattern`):
letters, digits, `:`, `/`, `-` — the shape of real origin patterns.  Every
wildcard-semantics theorem carries the `SimplePattern` guard; outside the
fragment `toks` is not a model of the compilation. -/

/-- The regex metacharacters (other than `.` and `*`, which the model
handles) that `pattern.replace(/\*/g, '.*')` leaves live. -/
def regexMetaChars : List Char :=
  ['+', '?', '(', ')', '[', ']', '|', '^', '$', '\\', Char.ofNat 123, Char.ofNat 125]

/-- The pattern fragment on which the tokenizer is a faithful model of the
compiled regex: no live metacharacter besides `*` and `.`. -/
def SimplePattern (p : String) : Bool :=
  p.toList.all (fun c => !(regexMetaChars.contains c))

/-- One token of the compiled anchored regex. -/
inductive Tok where
  | star : Tok
  | dot : Tok
  | lit : Char → Tok
deriving Repr, DecidableEq

/-- Tokenization of an allowlist pattern into its compiled regex:
`*` ↦ `.*`, `.` ↦ any-single-character, other characters literal — a
faithful reading of `pattern.replace(/\*/g, '.*')` exactly on
`SimplePattern` patterns (outside that fragment further metacharacters
would be live). -/
def toks (p : String) : List Tok :=
  p.toList.map (fun c => if c = '*' then .star else if c = '.' then .dot else .lit c)

/-- Backtracking anchored matcher, structurally recursive on an explicit
fuel so that concrete instances compute by `rfl`/`decide`.  Every recursive
call strictly decreases `ts.length + s.length`, so any fuel above that sum
makes the `0` branch unreachable. -/
def regexMatchFuel : Nat → List Tok → List Char → Bool
  | 0, _, _ => false
  | _ + 1, [], [] => true
  | _ + 1, [], _ :: _ => false
  | fuel + 1, .star :: ts, s =>
    regexMatchFuel fuel ts s ||
      (match s with
       | [] => false
       | _ :: s' => regexMatchFuel fuel (.star :: ts) s')
  | _ + 1, .dot :: _, [] => false
  | fuel + 1, .dot :: ts, _ :: s' => regexMatchFuel fuel ts s'
  | _ + 1, .lit _ :: _, [] => false
  | fuel + 1, .lit c :: ts, c' :: s' => c == c' && regexMatchFuel fuel ts s'

/-- Executable anchored matcher for the compiled regex (the behaviour of
`regex.test(origin)` with the regex anchored at both ends). -/
def regexMatch (ts : List Tok) (s : List Char) : Bool :=
  regexMatchFuel (ts.length + s.length + 1) ts s

/-- Declarative semantics of the compiled regex: `star` consumes any
(possibly empty) substring, `dot` consumes exactly one arbitrary character,
a literal consumes itself. -/
inductive DotStarMatch : List Tok → List Char → Prop where
  | nil : DotStarMatch [] []
  | lit (c : Char) (ts : List Tok) (s : List Char) :
      DotStarMatch ts s → DotStarMatch (.lit c :: ts) (c :: s)
  | dot (c : Char) (ts : List Tok) (s : List Char) :
      DotStarMatch ts s → DotStarMatch (.dot :: ts) (c :: s)
  | star (pre post : List Char) (ts : List Tok) :
      DotStarMatch ts post → DotStarMatch (.star :: ts) (pre ++ post)

/-- The matching semantics the spec sentence describes: each `*` expands to
some substring, while every non-`*` character — including `.` — matches
only itself.  (Definition follows the spec's words, for comparison with the
code's `regexMatch`.) -/
def specTokens (p : String) : List Tok :=
  p.toList.map (fun c => if c = '*' then .star else .lit c)

/-- `_isOriginAllowed` (lines 860-887): empty allowlist rejects; a
standalone `*` entry accepts everything; otherwise some entry must match
exactly or, if it contains `*`, via the compiled regex. -/
def isOriginAllowed (allowedOrigins : List String) (origin : String) : Bool :=
  if allowedOrigins.length == 0 then false
  else if allowedOrigins.contains "*" then true
  else
    allowedOrigins.any (fun allowedOrigin =>
      if allowedOrigin == origin then true
      else if allowedOrigin.toList.contains '*' then regexMatch (toks allowedOrigin) origin.toList
      else false)

/-! ## Bridge state and observable actions

`SandboxBridge` instance state (constructor, lines 519-538).  `securityLevel`
and `debug` only affect logging and are not modelled.  `pendingResponses` is
modelled by the list `pending` of registered message ids (each entry's
resolve/reject continuations are identified by the id) together with the
list `timers` of ids whose `setTimeout` timer is scheduled and has been
neither cleared nor fired. -/

/-- The abstracted behaviour of a registered message handler when invoked:
it returns a value (or a deferred value that later resolves with it), throws
synchronously, or returns a deferred value that later rejects.  Failure
cases carry `error.message` and `error.details` (`vnull` when absent). -/
inductive HandlerBehavior where
  | returns : Value → HandlerBehavior
  | throws : String → Value → HandlerBehavior
  | rejects : String → Value → HandlerBehavior

/-- Mutable state of one `SandboxBridge` instance. -/
structure BridgeState where
  allowedOrigins : List String
  messageTimeout : Nat
  maxMessageSize : Nat
  messageHandlers : List (String × HandlerBehavior)
  hasGlobalCallback : Bool
  pending : List String
  timers : List String
  messageCounter : Nat

/-- Constructor options (lines 520-526); a `0` numeric field models a
falsy/absent option, exactly as `options.x || default` sees it. -/
structure BridgeOptions where
  allowedOrigins : List String := []
  messageTimeout : Nat := 0
  maxMessageSize : Nat := 0

/-- The `SandboxBridge` constructor (lines 519-538). -/
def initBridge (options : BridgeOptions) : BridgeState :=
  { allowedOrigins := options.allowedOrigins
    messageTimeout := if options.messageTimeout == 0 then 5000 else options.messageTimeout
    maxMessageSize := if options.maxMessageSize == 0 then 1024 * 1024 else options.maxMessageSize
    messageHandlers := []
    hasGlobalCallback := false
    pending := []
    timers := []
    messageCounter := 0 }

/-- `allowOrigins` (lines 544-559): appends the given patterns to the
current allowlist.  (The `INVALID_ORIGINS` throw for a non-array argument
is ruled out by the `List String` type.) -/
def allowOrigins (st : BridgeState) (origins : List String) : BridgeState :=
  { st with allowedOrigins := st.allowedOrigins ++ origins }

/-- `registerHandler` (lines 638-650): `this.messageHandlers[type] = handler`
overwrites; prepending with first-match lookup models last-registration-wins. -/
def registerHandler (st : BridgeState) (t : String) (hb : HandlerBehavior) : BridgeState :=
  { st with messageHandlers := (t, hb) :: st.messageHandlers }

/-- `onMessage` (lines 656-668): installs the global fallback callback. -/
def onMessageRegister (st : BridgeState) : BridgeState :=
  { st with hasGlobalCallback := true }

/-- `_generateMessageId` (lines 849-852): wall-clock time plus the
incremented monotonic counter (the random suffix is environment randomness,
not modelled).  `counter` is the already-incremented value. -/
def genMessageId (now : Int) (counter : Nat) : String :=
  "msg_" ++ toString now ++ "_" ++ toString counter

/-- `_validateMessage` (lines 824-842): structural check (object with
truthy `id`, `timestamp`, `source`, `payload`), then the age test
`if (messageAge < 0 || messageAge > 60000) return false` on
`messageAge = Date.now() - message.timestamp`.  When the timestamp does
not coerce to a number the age is `NaN` and both comparisons are false, so
the message passes the age test — the source enforces no replay window on
such timestamps, and the `none` branch below reproduces that. -/
def validateMessage (now : Int) : Option Msg → Bool
  | none => false
  | some m =>
    (m.id != "") && m.timestamp.truthy && (m.source != "") && m.payload.truthy
      && (match m.timestamp.toNumber with
          | some ts =>
            let messageAge := now - ts
            !(decide (messageAge < 0) || decide (messageAge > 60000))
          | none => true)

/-- Settlement of the promise belonging to a pending request: fulfilled
with a payload, or rejected with a `UniCanvasError` of some code, message
value and details value. -/
inductive Settlement where
  | fulfilled : Value → Settlement
  | rejected : String → Value → Value → Settlement

/-- Observable actions of the bridge, in program order: the write of a
pending entry into `pendingResponses`, a `window.parent.postMessage`
transport call (message, target origin), settlement of a pending promise,
the `console.error` of the dispatch catch block, invocation of a
type-specific handler or of the global callback, and a handler's rejected
deferred value left without any attached continuation. -/
inductive Output where
  | register : String → Output
  | send : Msg → String → Output
  | settle : String → Settlement → Output
  | logError : Output
  | callHandler : String → Output
  | callGlobal : Output
  | unhandledRejection : Output

/-- `respondToMessage` (lines 676-704): builds and sends a response
envelope.  All modelled call sites pass the validated (hence non-empty)
inbound message id, so the `INVALID_MESSAGE_ID` throw cannot fire.  An
empty `status`/`targetOrigin` models an absent option (`status || 'success'`,
target `'*'` when absent). -/
def respondToMessage (st : BridgeState) (selfOrigin : String) (now : Int)
    (messageId : String) (responseData : Value) (status : String)
    (targetOrigin : String) : BridgeState × List Output :=
  let counter := st.messageCounter + 1
  let responseMessage : Msg :=
    { id := genMessageId now counter
      timestamp := .vnum now
      source := selfOrigin
      target := ""
      payload := responseData
      requiresResponse := false
      isResponse := true
      responseToId := messageId
      status := if status == "" then "success" else status }
  ({ st with messageCounter := counter },
   [.send responseMessage (if targetOrigin == "" then "*" else targetOrigin)])

/-- The error payload `{ message: error.message, details: error.details || {} }`
sent back when a handler fails (lines 772-780 and 801-809). -/
def errorResponsePayload (emsg : String) (details : Value) : Value :=
  .vobj (.cons "message" (.vstr emsg) (.cons "details" (jsOr details (.vobj .nil)) .nil))

/-- Handler invocation and result forwarding (lines 759-781 with the catch
block 797-810).  When `requiresResponse` is false and the handler's
deferred value rejects, no `.then/.catch` chain was attached (the chain at
lines 768-780 is built only under `message.requiresResponse`), so the
rejection is unobserved: no log, no response, an unhandled rejection. -/
def runHandler (st : BridgeState) (selfOrigin : String) (now : Int)
    (m : Msg) (t : String) (hb : HandlerBehavior) : BridgeState × List Output :=
  match hb with
  | .returns v =>
    if m.requiresResponse then
      let p := respondToMessage st selfOrigin now m.id v "" m.source
      (p.1, .callHandler t :: p.2)
    else (st, [.callHandler t])
  | .throws emsg details =>
    if m.requiresResponse then
      let p := respondToMessage st selfOrigin now m.id
        (errorResponsePayload emsg details) "error" m.source
      (p.1, .callHandler t :: .logError :: p.2)
    else (st, [.callHandler t, .logError])
  | .rejects emsg details =>
    if m.requiresResponse then
      let p := respondToMessage st selfOrigin now m.id
        (errorResponsePayload emsg details) "error" m.source
      (p.1, .callHandler t :: p.2)
    else (st, [.callHandler t, .unhandledRejection])

/-- Fallback path of the dispatch (lines 782-796): the global callback, if
installed, receives the message (its application-defined body is abstracted
as returning normally); otherwise the message is dropped without error
(dead-letter). -/
def fallbackStep (st : BridgeState) : BridgeState × List Output :=
  if st.hasGlobalCallback then (st, [.callGlobal]) else (st, [])

/-- Type-directed part of the dispatch (lines 757-796): a truthy string
`payload.type` with a registered handler selects that handler, anything
else goes to the fallback path. -/
def dispatch (st : BridgeState) (selfOrigin : String) (now : Int) (m : Msg) :
    BridgeState × List Output :=
  match m.payload.getField "type" with
  | .vstr t =>
    if t != "" then
      match st.messageHandlers.lookup t with
      | some hb => runHandler st selfOrigin now m t hb
      | none => fallbackStep st
    else fallbackStep st
  | _ => fallbackStep st

/-- The single inbound listener (lines 710-816): origin gate, structural
validation, then either correlation (response messages) or dispatch.  A
response whose `responseToId` has no live entry is a silent no-op. -/
def handleMessageEvent (st : BridgeState) (selfOrigin : String)
    (origin : String) (data : Option Msg) (now : Int) : BridgeState × List Output :=
  if !(isOriginAllowed st.allowedOrigins origin) then (st, [])
  else if !(validateMessage now data) then (st, [])
  else
    match data with
    | none => (st, [])
    | some m =>
      if m.isResponse && m.responseToId != "" then
        if st.pending.contains m.responseToId then
          ({ st with pending := st.pending.erase m.responseToId
                     timers := st.timers.erase m.responseToId },
           [.settle m.responseToId
              (if m.status == "error" then
                .rejected "REMOTE_ERROR"
                  (jsOr (m.payload.getField "message") (.vstr "Remote error"))
                  (jsOr (m.payload.getField "details") (.vobj .nil))
              else .fulfilled m.payload)])
        else (st, [])
      else dispatch st selfOrigin now m

/-- Result handed to the caller of `postMessage`: a promise that settles
later (registered under the new id), or an immediately resolved
`\x7b sent: true, id \x7d`. -/
inductive PostResult where
  | promisePending : String → PostResult
  | resolvedSent : String → PostResult

/-- `postMessage` (lines 568-631).  Synchronous `UniCanvasError` throws are
the `Except.error` case, in the source's check order: non-object message,
empty target, serialized size above `maxMessageSize`.  The size is
`JSON.stringify(message).length`, a count of UTF-16 code units (not
bytes).  In the `requiresResponse` branch the pending entry and its timer
are written before the transport call, hence the output order `register`
then `send`. -/
def postMessage (st : BridgeState) (selfOrigin : String) (now : Int)
    (message : Value) (targetOrigin : String) (requiresResponse : Bool) :
    Except UniErr (BridgeState × List Output × PostResult) :=
  match message with
  | .vobj _ =>
    if targetOrigin == "" then
      .error ⟨"INVALID_TARGET", "Target origin is required"⟩
    else
      let messageSize := utf16Length (Value.stringify message)
      if messageSize > st.maxMessageSize then
        .error ⟨"MESSAGE_TOO_LARGE", "Message size exceeds maximum allowed size"⟩
      else
        let counter := st.messageCounter + 1
        let messageId := genMessageId now counter
        let fullMessage : Msg :=
          { id := messageId
            timestamp := .vnum now
            source := selfOrigin
            target := targetOrigin
            payload := message
            requiresResponse := requiresResponse
            isResponse := false
            responseToId := ""
            status := "" }
        if requiresResponse then
          .ok ({ st with messageCounter := counter
                         pending := messageId :: st.pending
                         timers := messageId :: st.timers },
               [.register messageId, .send fullMessage targetOrigin],
               .promisePending messageId)
        else
          .ok ({ st with messageCounter := counter },
               [.send fullMessage targetOrigin],
               .resolvedSent messageId)
  | _ => .error ⟨"INVALID_MESSAGE", "Message must be an object"⟩

/-- Events delivered to a bridge whose requests are in flight: an inbound
transport message, or the firing of a pending request's timeout timer.  A
timer can fire only while it is scheduled and uncleared (`clearTimeout` at
line 738 and the firing itself remove it), which the `timers` membership
guard expresses. -/
inductive BridgeEvent where
  | recv : String → Option Msg → Int → BridgeEvent
  | timerFire : String → BridgeEvent

/-- One scheduler turn (single-threaded, run-to-completion): the listener
body, or a timeout callback (lines 608-614: remove the entry, reject with
`RESPONSE_TIMEOUT`). -/
def step (selfOrigin : String) (st : BridgeState) (e : BridgeEvent) :
    BridgeState × List Output :=
  match e with
  | .recv origin data now => handleMessageEvent st selfOrigin origin data now
  | .timerFire id =>
    if st.timers.contains id then
      ({ st with pending := st.pending.erase id, timers := st.timers.erase id },
       [.settle id (.rejected "RESPONSE_TIMEOUT"
          (.vstr ("Response for message " ++ id ++ " timed out after "
            ++ toString st.messageTimeout ++ "ms"))
          (.vobj .nil))])
    else (st, [])

/-- A sequence of scheduler turns, collecting the emitted outputs. -/
def run (selfOrigin : String) (st : BridgeState) : List BridgeEvent →
    BridgeState × List Output
  | [] => (st, [])
  | e :: rest =>
    let p := step selfOrigin st e
    let q := run selfOrigin p.1 rest
    (q.1, p.2 ++ q.2)

/-- Modelled from the spec: `SandboxBridge` in src has no teardown/destroy
method; spec §5 ("Cancellation/timeout") and §7 require that tearing down
the bridge cancels all outstanding timers and rejects every still-pending
entry with kind `BridgeClosed`.  This definition follows those words:
every scheduled timer is cleared and each pending entry's continuation is
rejected with code `BRIDGE_CLOSED`. -/
def teardown (st : BridgeState) : BridgeState × List Output :=
  ({ st with pending := [], timers := [] },
   st.pending.map (fun id =>
     .settle id (.rejected "BRIDGE_CLOSED" (.vstr "Bridge closed") (.vobj .nil))))

/-- Number of settlement outputs for a given id in a trace. -/
def settleCount (id : String) (outs : List Output) : Nat :=
  (outs.filter (fun o =>
    match o with
    | .settle id' _ => id' == id
    | _ => false)).length

/-- Correlation-table well-formedness: the set of live timers is exactly
the set of pending entries (each pending request owns exactly one timer),
without duplicate ids. -/
def TableInv (st : BridgeState) : Prop :=
  st.pending = st.timers ∧ st.pending.Nodup

/-! ## Matcher correctness -/

/-- Soundness of the executable matcher: a successful match is derivable in
the declarative star/dot semantics. -/
theorem regexMatchFuel_sound (fuel : Nat) : ∀ (ts : List Tok) (s : List Char),
    regexMatchFuel fuel ts s = true → DotStarMatch ts s := by
  induction fuel with
  | zero => intro ts s h; simp [regexMatchFuel] at h
  | succ fuel ih =>
    intro ts s h
    match ts, s with
    | [], [] => exact .nil
    | [], _ :: _ => simp [regexMatchFuel] at h
    | .star :: ts', [] =>
      simp only [regexMatchFuel, Bool.or_false] at h
      exact DotStarMatch.star [] [] ts' (ih ts' [] h)
    | .star :: ts', c :: s' =>
      simp only [regexMatchFuel, Bool.or_eq_true] at h
      rcases h with h | h
      · exact DotStarMatch.star [] (c :: s') ts' (ih ts' (c :: s') h)
      · have hd := ih (.star :: ts') s' h
        cases hd with
        | star pre post ts2 hpost => exact DotStarMatch.star (c :: pre) post ts' hpost
    | .dot :: ts', [] => simp [regexMatchFuel] at h
    | .dot :: ts', c :: s' =>
      simp only [regexMatchFuel] at h
      exact DotStarMatch.dot c ts' s' (ih ts' s' h)
    | .lit c :: ts', [] => simp [regexMatchFuel] at h
    | .lit c :: ts', c' :: s' =>
      simp only [regexMatchFuel, Bool.and_eq_true, beq_iff_eq] at h
      rcases h with ⟨rfl, h⟩
      exact DotStarMatch.lit _ ts' s' (ih ts' s' h)

/-- Completeness of the executable matcher for any sufficient fuel. -/
theorem regexMatchFuel_complete {ts : List Tok} {s : List Char}
    (hd : DotStarMatch ts s) : ∀ fuel : Nat, ts.length + s.length < fuel →
    regexMatchFuel fuel ts s = true := by
  induction hd with
  | nil => intro fuel hf; match fuel, hf with | f + 1, _ => rfl
  | lit c ts s _ ih =>
    intro fuel hf
    match fuel, hf with
    | f + 1, hf =>
      simp only [regexMatchFuel, Bool.and_eq_true, beq_iff_eq]
      exact ⟨trivial, ih f (by simp at hf; omega)⟩
  | dot c ts s _ ih =>
    intro fuel hf
    match fuel, hf with
    | f + 1, hf =>
      simp only [regexMatchFuel]
      exact ih f (by simp at hf; omega)
  | star pre post ts _ ih =>
    induction pre with
    | nil =>
      intro fuel hf
      match fuel, hf with
      | f + 1, hf =>
        simp only [regexMatchFuel, Bool.or_eq_true]
        exact Or.inl (ih f (by simp at hf; omega))
    | cons c pre' ihp =>
      intro fuel hf
      match fuel, hf with
      | f + 1, hf =>
        simp only [regexMatchFuel, Bool.or_eq_true]
        refine Or.inr ?_
        exact ihp f (by simp at hf ⊢; omega)

/-- The compiled-regex test agrees with the declarative star/dot semantics. -/
theorem regexMatch_iff (ts : List Tok) (s : List Char) :
    regexMatch ts s = true ↔ DotStarMatch ts s :=
  ⟨regexMatchFuel_sound _ ts s, fun hd => regexMatchFuel_complete hd _ (by omega)⟩

/-- Propositional characterization of `_isOriginAllowed`: the allowlist is
non-empty and either holds the universal wildcard, or the origin itself, or
a `*`-pattern whose compiled regex accepts the origin. -/
theorem isOriginAllowed_iff (A : List String) (O : String) :
    isOriginAllowed A O = true ↔
      A ≠ [] ∧ ("*" ∈ A ∨ O ∈ A ∨
        ∃ p ∈ A, '*' ∈ p.toList ∧ regexMatch (toks p) O.toList = true) := by
  unfold isOriginAllowed
  by_cases hA : A = []
  · subst hA; simp
  · have hA0 : (A.length == 0) = false := by
      rw [beq_eq_false_iff_ne]
      exact fun hz => hA (List.length_eq_zero.mp hz)
    rw [hA0]
    by_cases hw : "*" ∈ A
    · have hwc : A.contains "*" = true := by simpa using hw
      rw [hwc]
      simp [hA, hw]
    · have hwc : A.contains "*" = false := by simpa using hw
      rw [hwc]
      simp only [Bool.false_eq_true, if_false]
      rw [List.any_eq_true]
      constructor
      · rintro ⟨p, hp, hf⟩
        by_cases hpo : p = O
        · exact ⟨hA, Or.inr (Or.inl (hpo ▸ hp))⟩
        · have h1 : (p == O) = false := by simpa using hpo
          simp only [h1, Bool.false_eq_true, if_false] at hf
          by_cases hpc : '*' ∈ p.toList
          · have h2 : p.toList.contains '*' = true := by simpa using hpc
            simp only [h2, if_true] at hf
            exact ⟨hA, Or.inr (Or.inr ⟨p, hp, hpc, hf⟩)⟩
          · have h2 : p.toList.contains '*' = false := by simpa using hpc
            simp [h2] at hf
            exact absurd hf.1 hpc
      · rintro ⟨-, hcase⟩
        rcases hcase with hw' | hO | ⟨p, hp, hstar, hmatch⟩
        · exact absurd hw' hw
        · exact ⟨O, hO, by simp⟩
        · refine ⟨p, hp, ?_⟩
          have h2 : p.toList.contains '*' = true := by simpa using hstar
          by_cases hpo : p = O
          · simp [hpo]
          · have h1 : (p == O) = false := by simpa using hpo
            simp [h1, h2, hmatch]
            exact ⟨hstar, hmatch⟩

/-! ## Helper lemmas about the correlation table and the event step -/

theorem settleCount_append (id : String) (a b : List Output) :
    settleCount id (a ++ b) = settleCount id a + settleCount id b := by
  simp [settleCount, List.filter_append]

theorem settle_mem_one_le (id : String) (stl : Settlement) (outs : List Output)
    (h : Output.settle id stl ∈ outs) : 1 ≤ settleCount id outs := by
  have hmem : Output.settle id stl ∈ outs.filter (fun o =>
      match o with
      | .settle id' _ => id' == id
      | _ => false) := List.mem_filter.mpr ⟨h, by simp⟩
  exact List.length_pos_of_mem hmem

theorem respondToMessage_facts (st : BridgeState) (selfOrigin : String) (now : Int)
    (mid : String) (data : Value) (status tgt : String) (id : String) :
    (respondToMessage st selfOrigin now mid data status tgt).1.pending = st.pending ∧
    (respondToMessage st selfOrigin now mid data status tgt).1.timers = st.timers ∧
    (respondToMessage st selfOrigin now mid data status tgt).1.allowedOrigins = st.allowedOrigins ∧
    settleCount id (respondToMessage st selfOrigin now mid data status tgt).2 = 0 := by
  simp [respondToMessage, settleCount]

theorem runHandler_facts (st : BridgeState) (selfOrigin : String) (now : Int)
    (m : Msg) (t : String) (hb : HandlerBehavior) (id : String) :
    (runHandler st selfOrigin now m t hb).1.pending = st.pending ∧
    (runHandler st selfOrigin now m t hb).1.timers = st.timers ∧
    (runHandler st selfOrigin now m t hb).1.allowedOrigins = st.allowedOrigins ∧
    settleCount id (runHandler st selfOrigin now m t hb).2 = 0 := by
  cases hb <;> cases hm : m.requiresResponse <;>
    simp [runHandler, respondToMessage, settleCount, hm]

theorem fallbackStep_facts (st : BridgeState) (id : String) :
    (fallbackStep st).1 = st ∧ settleCount id (fallbackStep st).2 = 0 := by
  by_cases hg : st.hasGlobalCallback <;> simp [fallbackStep, hg, settleCount]

theorem dispatch_facts (st : BridgeState) (selfOrigin : String) (now : Int)
    (m : Msg) (id : String) :
    (dispatch st selfOrigin now m).1.pending = st.pending ∧
    (dispatch st selfOrigin now m).1.timers = st.timers ∧
    (dispatch st selfOrigin now m).1.allowedOrigins = st.allowedOrigins ∧
    settleCount id (dispatch st selfOrigin now m).2 = 0 := by
  have hfb : (fallbackStep st).1.pending = st.pending ∧
      (fallbackStep st).1.timers = st.timers ∧
      (fallbackStep st).1.allowedOrigins = st.allowedOrigins ∧
      settleCount id (fallbackStep st).2 = 0 := by
    rcases fallbackStep_facts st id with ⟨h1, h2⟩
    rw [h1]
    exact ⟨rfl, rfl, rfl, h2⟩
  rcases hty : m.payload.getField "type" with _ | b | n | t | fs
  · simpa [dispatch, hty] using hfb
  · simpa [dispatch, hty] using hfb
  · simpa [dispatch, hty] using hfb
  · by_cases ht : t = ""
    · simpa [dispatch, hty, ht] using hfb
    · rcases hlk : st.messageHandlers.lookup t with _ | hb
      · simpa [dispatch, hty, ht, hlk] using hfb
      · simpa [dispatch, hty, ht, hlk] using runHandler_facts st selfOrigin now m t hb id
  · simpa [dispatch, hty] using hfb

theorem handleMessageEvent_facts (st : BridgeState) (selfOrigin origin : String)
    (data : Option Msg) (now : Int) (id : String) (hinv : TableInv st) :
    TableInv (handleMessageEvent st selfOrigin origin data now).1 ∧
    settleCount id (handleMessageEvent st selfOrigin origin data now).2 ≤ 1 ∧
    ((handleMessageEvent st selfOrigin origin data now).1.pending.contains id = true →
      st.pending.contains id = true) ∧
    (1 ≤ settleCount id (handleMessageEvent st selfOrigin origin data now).2 →
      st.pending.contains id = true ∧
      (handleMessageEvent st selfOrigin origin data now).1.pending.contains id = false ∧
      (handleMessageEvent st selfOrigin origin data now).1.timers.contains id = false) := by
  by_cases ho : isOriginAllowed st.allowedOrigins origin = true
  case neg =>
    have ho' : isOriginAllowed st.allowedOrigins origin = false := by
      simpa [Bool.not_eq_true] using ho
    simp [handleMessageEvent, ho', settleCount, hinv]
  case pos =>
  by_cases hv : validateMessage now data = true
  case neg =>
    have hv' : validateMessage now data = false := by
      simpa [Bool.not_eq_true] using hv
    simp [handleMessageEvent, ho, hv', settleCount, hinv]
  case pos =>
  cases data with
  | none => simp [validateMessage] at hv
  | some m =>
    by_cases hr : (m.isResponse && (m.responseToId != "")) = true
    case neg =>
      have hr' : (m.isResponse && (m.responseToId != "")) = false := by
        simpa [Bool.not_eq_true] using hr
      rcases dispatch_facts st selfOrigin now m id with ⟨hp1, ht1, _, hc⟩
      have hres : handleMessageEvent st selfOrigin origin (some m) now =
          dispatch st selfOrigin now m := by
        simp [handleMessageEvent, ho, hv, hr']
      rw [hres, hc]
      refine ⟨?_, by omega, ?_, by omega⟩
      · constructor
        · rw [hp1, ht1]; exact hinv.1
        · rw [hp1]; exact hinv.2
      · intro h; rw [hp1] at h; exact h
    case pos =>
      by_cases hp : st.pending.contains m.responseToId = true
      case neg =>
        have hp' : m.responseToId ∉ st.pending := by
          intro hmem
          exact hp (by simpa using hmem)
        have hres : handleMessageEvent st selfOrigin origin (some m) now = (st, []) := by
          simp [handleMessageEvent, ho, hv, hr, hp']
        rw [hres]
        simp [settleCount, hinv]
      case pos =>
        have hpmem : m.responseToId ∈ st.pending := by simpa using hp
        have hres : handleMessageEvent st selfOrigin origin (some m) now =
            ({ st with pending := st.pending.erase m.responseToId
                       timers := st.timers.erase m.responseToId },
             [.settle m.responseToId
                (if m.status == "error" then
                  .rejected "REMOTE_ERROR"
                    (jsOr (m.payload.getField "message") (.vstr "Remote error"))
                    (jsOr (m.payload.getField "details") (.vobj .nil))
                else .fulfilled m.payload)]) := by
          simp [handleMessageEvent, ho, hv, hr, hpmem]
        rw [hres]
        have hnodupT : st.timers.Nodup := hinv.1 ▸ hinv.2
        have hinv' : TableInv { st with pending := st.pending.erase m.responseToId
                                        timers := st.timers.erase m.responseToId } := by
          refine ⟨?_, ?_⟩
          · show st.pending.erase m.responseToId = st.timers.erase m.responseToId
            rw [hinv.1]
          · exact hinv.2.erase m.responseToId
        by_cases hid : m.responseToId = id
        case pos =>
          subst hid
          have hcount : settleCount m.responseToId [Output.settle m.responseToId
              (if m.status == "error" then
                .rejected "REMOTE_ERROR"
                  (jsOr (m.payload.getField "message") (.vstr "Remote error"))
                  (jsOr (m.payload.getField "details") (.vobj .nil))
              else .fulfilled m.payload)] = 1 := by
            simp [settleCount, List.filter]
          refine ⟨hinv', by rw [hcount], ?_, ?_⟩
          · intro h
            have hmem : m.responseToId ∈ st.pending.erase m.responseToId := by
              simpa using h
            simpa using List.mem_of_mem_erase hmem
          · intro _
            refine ⟨hp, ?_, ?_⟩
            · simp [List.Nodup.mem_erase_iff hinv.2]
            · simp [List.Nodup.mem_erase_iff hnodupT]
        case neg =>
          have hcount : settleCount id [Output.settle m.responseToId
              (if m.status == "error" then
                .rejected "REMOTE_ERROR"
                  (jsOr (m.payload.getField "message") (.vstr "Remote error"))
                  (jsOr (m.payload.getField "details") (.vobj .nil))
              else .fulfilled m.payload)] = 0 := by
            have hbeq : (m.responseToId == id) = false := by simpa using hid
            simp [settleCount, List.filter, hbeq]
          refine ⟨hinv', by rw [hcount]; omega, ?_, by rw [hcount]; omega⟩
          intro h
          have hmem : id ∈ st.pending.erase m.responseToId := by simpa using h
          simpa using List.mem_of_mem_erase hmem

theorem step_facts (selfOrigin : String) (st : BridgeState) (e : BridgeEvent) (id : String)
    (hinv : TableInv st) :
    TableInv (step selfOrigin st e).1 ∧
    settleCount id (step selfOrigin st e).2 ≤ 1 ∧
    ((step selfOrigin st e).1.pending.contains id = true → st.pending.contains id = true) ∧
    (1 ≤ settleCount id (step selfOrigin st e).2 →
      st.pending.contains id = true ∧
      (step selfOrigin st e).1.pending.contains id = false ∧
      (step selfOrigin st e).1.timers.contains id = false) := by
  cases e with
  | recv origin data now => exact handleMessageEvent_facts st selfOrigin origin data now id hinv
  | timerFire tid =>
    by_cases ht : st.timers.contains tid = true
    case neg =>
      have ht' : tid ∉ st.timers := by
        intro hmem
        exact ht (by simpa using hmem)
      simp [step, ht', settleCount, hinv]
    case pos =>
      have htm : tid ∈ st.timers := by simpa using ht
      have hres : step selfOrigin st (.timerFire tid) =
          ({ st with pending := st.pending.erase tid, timers := st.timers.erase tid },
           [.settle tid (.rejected "RESPONSE_TIMEOUT"
              (.vstr ("Response for message " ++ tid ++ " timed out after "
                ++ toString st.messageTimeout ++ "ms"))
              (.vobj .nil))]) := by
        simp [step, htm]
      rw [hres]
      have hnodupT : st.timers.Nodup := hinv.1 ▸ hinv.2
      have hp : st.pending.contains tid = true := by rw [hinv.1]; exact ht
      have hinv' : TableInv { st with pending := st.pending.erase tid
                                      timers := st.timers.erase tid } := by
        refine ⟨?_, ?_⟩
        · show st.pending.erase tid = st.timers.erase tid
          rw [hinv.1]
        · exact hinv.2.erase tid
      by_cases hid : tid = id
      case pos =>
        subst hid
        have hcount : settleCount tid [Output.settle tid (.rejected "RESPONSE_TIMEOUT"
            (.vstr ("Response for message " ++ tid ++ " timed out after "
              ++ toString st.messageTimeout ++ "ms"))
            (.vobj .nil))] = 1 := by
          simp [settleCount, List.filter]
        refine ⟨hinv', by rw [hcount], ?_, ?_⟩
        · intro h
          have hmem : tid ∈ st.pending.erase tid := by simpa using h
          simpa using List.mem_of_mem_erase hmem
        · intro _
          refine ⟨hp, ?_, ?_⟩
          · simp [List.Nodup.mem_erase_iff hinv.2]
          · simp [List.Nodup.mem_erase_iff hnodupT]
      case neg =>
        have hbeq : (tid == id) = false := by simpa using hid
        have hcount : settleCount id [Output.settle tid (.rejected "RESPONSE_TIMEOUT"
            (.vstr ("Response for message " ++ tid ++ " timed out after "
              ++ toString st.messageTimeout ++ "ms"))
            (.vobj .nil))] = 0 := by
          simp [settleCount, List.filter, hbeq]
        refine ⟨hinv', by rw [hcount]; omega, ?_, by rw [hcount]; omega⟩
        intro h
        have hmem : id ∈ st.pending.erase tid := by simpa using h
        simpa using List.mem_of_mem_erase hmem

theorem run_facts (selfOrigin : String) (id : String) : ∀ (es : List BridgeEvent)
    (st : BridgeState), TableInv st →
    TableInv (run selfOrigin st es).1 ∧
    (st.pending.contains id = false →
      settleCount id (run selfOrigin st es).2 = 0 ∧
      (run selfOrigin st es).1.pending.contains id = false) ∧
    settleCount id (run selfOrigin st es).2 ≤ 1 := by
  intro es
  induction es with
  | nil => intro st hinv; exact ⟨hinv, fun h => ⟨rfl, h⟩, by simp [run, settleCount]⟩
  | cons e rest ih =>
    intro st hinv
    obtain ⟨hinv1, hle1, hmono1, himp1⟩ := step_facts selfOrigin st e id hinv
    obtain ⟨hinvr, hnp, hler⟩ := ih (step selfOrigin st e).1 hinv1
    have hrun1 : (run selfOrigin st (e :: rest)).1 =
        (run selfOrigin (step selfOrigin st e).1 rest).1 := rfl
    have hrun2 : (run selfOrigin st (e :: rest)).2 =
        (step selfOrigin st e).2 ++ (run selfOrigin (step selfOrigin st e).1 rest).2 := rfl
    refine ⟨by rw [hrun1]; exact hinvr, ?_, ?_⟩
    · intro hpf
      have hc1 : settleCount id (step selfOrigin st e).2 = 0 := by
        by_contra hne
        have h1 : 1 ≤ settleCount id (step selfOrigin st e).2 := by omega
        have := (himp1 h1).1
        rw [this] at hpf
        exact Bool.true_eq_false.mp hpf
      have hpf1 : (step selfOrigin st e).1.pending.contains id = false := by
        cases hcontain : (step selfOrigin st e).1.pending.contains id with
        | false => rfl
        | true =>
          have := hmono1 hcontain
          rw [this] at hpf
          exact absurd hpf (by simp)
      obtain ⟨hc2, hpf2⟩ := hnp hpf1
      constructor
      · rw [hrun2, settleCount_append, hc1, hc2]
      · rw [hrun1]; exact hpf2
    · rw [hrun2, settleCount_append]
      rcases Nat.eq_zero_or_pos (settleCount id (step selfOrigin st e).2) with hc1 | hc1
      · rw [hc1]; omega
      · have hp1 := himp1 hc1
        obtain ⟨hc2, _⟩ := hnp hp1.2.1
        rw [hc2]
        omega

/-! ## Claim theorems -/

/-- C3: the origin policy fails closed.  An empty allowlist rejects every
origin; an origin that is not an element of a wildcard-free allowlist is
rejected; and in the listener an inbound message from a rejected origin is
dropped with no state change and no output — in particular before any
handler runs. -/
theorem C3_origin_fails_closed :
    (∀ O : String, isOriginAllowed [] O = false) ∧
    (∀ (allowed : List String) (O : String),
      (∀ p ∈ allowed, p.toList.contains '*' = false) → O ∉ allowed →
        isOriginAllowed allowed O = false) ∧
    (∀ (st : BridgeState) (selfOrigin origin : String) (data : Option Msg) (now : Int),
      isOriginAllowed st.allowedOrigins origin = false →
        handleMessageEvent st selfOrigin origin data now = (st, [])) := by
  refine ⟨fun O => rfl, ?_, ?_⟩
  · intro allowed O hstar hmem
    unfold isOriginAllowed
    cases hlen : (allowed.length == 0) with
    | true => simp
    | false =>
      have hnw : ¬ ("*" ∈ allowed) := by
        intro hw
        have := hstar "*" hw
        exact absurd this (by decide)
      simp [hlen, hnw]
      intro x hx
      refine ⟨fun he => hmem (he ▸ hx), fun hsm => ?_⟩
      have h2 : '*' ∉ x.toList := by simpa using hstar x hx
      exact absurd hsm h2
  · intro st selfOrigin origin data now ho
    simp [handleMessageEvent, ho]

/-- C3 witness: the allowlist scenario of spec §8 — allowlist
`["https://a.test"]`, origin `https://b.test` — is rejected. -/
theorem C3_origin_fails_closed_witness :
    isOriginAllowed ["https://a.test"] "https://b.test" = false :=
  C3_origin_fails_closed.2.1 ["https://a.test"] "https://b.test"
    (by decide) (by decide)

/-- C4 counterexample: the claim says every non-`*` character of a
wildcard pattern — including `.` — matches only itself.  On the code, the
pattern is compiled with only `*` rewritten, so `.` is the regex
any-character: the pattern `https://*.co` (a `SimplePattern`, so inside
the faithfully modelled fragment) accepts the origin `https://xco`, which
is not obtainable by substituting a substring for `*` alone (`specTokens`
is the spec's literal-dot semantics, related to `DotStarMatch` by
`regexMatch_iff`). -/
theorem C4_wildcard_counterexample :
    isOriginAllowed ["https://*.co"] "https://xco" = true ∧
    regexMatch (specTokens "https://*.co") "https://xco".toList = false := by
  exact ⟨by decide, by decide⟩

/-- C4 (amended): for a pattern containing `*` whose other characters are
regex-literal (`SimplePattern`: none of `+ ? ( ) [ ] \x7b \x7d | ^ $ \` —
the shape of real origin patterns, and the fragment on which the
compilation is modelled), the origin check accepts `O` exactly when the
pattern string equals `O` or `O` matches the compiled regex, in which `*`
matches any (possibly empty) substring, `.` matches any single character
(it is left unescaped by the compilation), and every other character
matches only itself; the match is anchored at both ends.  Outside the
`SimplePattern` fragment the unescaped metacharacters stay live in the
compiled regex (e.g. `a+*` compiles to `^a+.*$`, which accepts `aa`), or a
malformed pattern such as `(*` makes the `RegExp` constructor throw, so no
statement of this tokenized form holds there. -/
theorem C4_wildcard_match_semantics (p O : String)
    (hs : SimplePattern p = true)
    (h : p.toList.contains '*' = true) :
    isOriginAllowed [p] O = true ↔ (p = O ∨ DotStarMatch (toks p) O.toList) := by
  by_cases hP : p = "*"
  · subst hP
    have ht : toks "*" = [Tok.star] := by decide
    have hL : isOriginAllowed ["*"] O = true := by simp [isOriginAllowed]
    refine iff_of_true hL (Or.inr ?_)
    rw [ht]
    have := DotStarMatch.star O.toList [] [] DotStarMatch.nil
    simpa using this
  · have hw : ¬ ("*" ∈ [p]) := by
      intro hmem
      rw [List.mem_singleton] at hmem
      exact hP hmem.symm
    have hchar : isOriginAllowed [p] O =
        ((p == O) || regexMatch (toks p) O.toList) := by
      by_cases hpo : p = O
      · subst hpo
        simp [isOriginAllowed, hw]
      · have h1 : (p == O) = false := by simpa using hpo
        have h2 : '*' ∈ p.toList := by simpa using h
        have hP2 : "*" ≠ p := fun he => hP he.symm
        simp [isOriginAllowed, hw, h1, h2, hpo, hP2]
        exact fun _ => h2
    rw [hchar]
    simp only [Bool.or_eq_true, beq_iff_eq]
    exact or_congr Iff.rfl (regexMatch_iff (toks p) O.toList)

/-- C4 witness: the amended semantics applied to the metacharacter-free
pattern `https://*.example.com` and the origin `https://a.example.com`. -/
theorem C4_wildcard_match_semantics_witness :
    isOriginAllowed ["https://*.example.com"] "https://a.example.com" = true ↔
      ("https://*.example.com" = "https://a.example.com" ∨
        DotStarMatch (toks "https://*.example.com")
          "https://a.example.com".toList) :=
  C4_wildcard_match_semantics "https://*.example.com" "https://a.example.com"
    (by decide) (by decide)

/-- C10: `allowOrigins` only appends — the new allowlist is the old one
followed by the given patterns, so nothing is removed; consequently the
origin check is monotone across a call.  The other mutators
(`registerHandler`, the global-callback registration, every listener/timer
step) and a successful `postMessage` leave the allowlist untouched, so no
modelled bridge operation shrinks it. -/
theorem C10_allowlist_monotone :
    (∀ (st : BridgeState) (L : List String),
      (allowOrigins st L).allowedOrigins = st.allowedOrigins ++ L) ∧
    (∀ (st : BridgeState) (L : List String) (O : String),
      isOriginAllowed st.allowedOrigins O = true →
      isOriginAllowed (allowOrigins st L).allowedOrigins O = true) ∧
    (∀ (st : BridgeState) (t : String) (hb : HandlerBehavior),
      (registerHandler st t hb).allowedOrigins = st.allowedOrigins) ∧
    (∀ st : BridgeState, (onMessageRegister st).allowedOrigins = st.allowedOrigins) ∧
    (∀ (selfOrigin : String) (st : BridgeState) (e : BridgeEvent),
      (step selfOrigin st e).1.allowedOrigins = st.allowedOrigins) ∧
    (∀ (st : BridgeState) (selfOrigin : String) (now : Int) (msg : Value)
      (tgt : String) (rr : Bool) (res : BridgeState × List Output × PostResult),
      postMessage st selfOrigin now msg tgt rr = .ok res →
      res.1.allowedOrigins = st.allowedOrigins) := by
  refine ⟨fun st L => rfl, ?_, fun st t hb => rfl, fun st => rfl, ?_, ?_⟩
  · intro st L O h
    show isOriginAllowed (st.allowedOrigins ++ L) O = true
    rw [isOriginAllowed_iff] at h ⊢
    obtain ⟨hA, hcase⟩ := h
    refine ⟨fun he => hA (List.append_eq_nil.mp he).1, ?_⟩
    rcases hcase with hw | hO | ⟨p, hp, hstar, hmatch⟩
    · exact Or.inl (List.mem_append.mpr (Or.inl hw))
    · exact Or.inr (Or.inl (List.mem_append.mpr (Or.inl hO)))
    · exact Or.inr (Or.inr ⟨p, List.mem_append.mpr (Or.inl hp), hstar, hmatch⟩)
  · intro selfOrigin st e
    cases e with
    | timerFire tid =>
      by_cases ht : tid ∈ st.timers
      · simp [step, ht]
      · simp [step, ht]
    | recv origin data now =>
      show (handleMessageEvent st selfOrigin origin data now).1.allowedOrigins =
        st.allowedOrigins
      unfold handleMessageEvent
      by_cases ho : isOriginAllowed st.allowedOrigins origin = true
      · by_cases hv : validateMessage now data = true
        · cases data with
          | none => simp [ho, hv]
          | some m =>
            by_cases hr : (m.isResponse && (m.responseToId != "")) = true
            · by_cases hp : m.responseToId ∈ st.pending
              · simp [ho, hv, hr, hp]
              · simp [ho, hv, hr, hp]
            · have hr' : (m.isResponse && (m.responseToId != "")) = false := by
                simpa [Bool.not_eq_true] using hr
              simp [ho, hv, hr']
              exact (dispatch_facts st selfOrigin now m "x").2.2.1
        · have hv' : validateMessage now data = false := by
            simpa [Bool.not_eq_true] using hv
          simp [ho, hv']
      · have ho' : isOriginAllowed st.allowedOrigins origin = false := by
          simpa [Bool.not_eq_true] using ho
        simp [ho']
  · intro st selfOrigin now msg tgt rr res hok
    cases msg with
    | vobj fs =>
      unfold postMessage at hok
      by_cases htgt : (tgt == "") = true
      · rw [if_pos htgt] at hok
        exact Except.noConfusion hok
      · rw [if_neg htgt] at hok
        by_cases hsz : utf16Length (Value.stringify (.vobj fs)) > st.maxMessageSize
        · rw [if_pos hsz] at hok
          exact Except.noConfusion hok
        · rw [if_neg hsz] at hok
          cases rr with
          | true =>
            rw [if_pos rfl] at hok
            injection hok with h2
            rw [← h2]
          | false =>
            rw [if_neg (by simp)] at hok
            injection hok with h2
            rw [← h2]
    | vnull => exact Except.noConfusion hok
    | vbool b => exact Except.noConfusion hok
    | vnum n => exact Except.noConfusion hok
    | vstr s => exact Except.noConfusion hok

/-- C10 witness: a concrete monotonicity instance — `https://a.test` stays
accepted after appending a second pattern. -/
theorem C10_allowlist_monotone_witness :
    isOriginAllowed (allowOrigins (initBridge { allowedOrigins := ["https://a.test"] })
        ["https://b.test"]).allowedOrigins "https://a.test" = true :=
  C10_allowlist_monotone.2.1 (initBridge { allowedOrigins := ["https://a.test"] })
    ["https://b.test"] "https://a.test" (by decide)

/-- C5 counterexample: the claim measures the "serialized byte length",
but the code compares `JSON.stringify(message).length` — UTF-16 code
units.  The payload `\x7b"a":"é"\x7d` serializes to 9 code units but 10
UTF-8 bytes; with `maxMessageSize := 9` its byte length is exactly one
byte over the ceiling, yet `postMessage` accepts it. -/
theorem C5_byte_length_counterexample :
    utf8Length (Value.stringify (.vobj (.cons "a" (.vstr "é") .nil))) =
      (initBridge { maxMessageSize := 9 }).maxMessageSize + 1 ∧
    (∃ res, postMessage (initBridge { maxMessageSize := 9 }) "https://me.test" 1000
      (.vobj (.cons "a" (.vstr "é") .nil)) "https://t.test" false = .ok res) :=
  ⟨by decide, ⟨_, rfl⟩⟩

/-- C5 (amended): `postMessage` compares the serialized length of the
payload in UTF-16 code units — `JSON.stringify(message).length`, not the
byte length — against `maxMessageSize` before anything is handed to the
transport: a payload whose serialized length equals `maxMessageSize`
exactly is accepted, one unit over is rejected synchronously with the
`MESSAGE_TOO_LARGE` kind (an `Except.error` return carries no state
change, no outputs — so nothing is sent and no pending entry is created),
and the constructor default for `maxMessageSize` is 1 MiB.  For non-ASCII
payloads the byte length may exceed the ceiling while the message is still
accepted. -/
theorem C5_size_boundary :
    (∀ (st : BridgeState) (selfOrigin : String) (now : Int) (fs : Fields)
      (tgt : String) (rr : Bool),
      tgt ≠ "" →
      utf16Length (Value.stringify (.vobj fs)) = st.maxMessageSize →
      ∃ res, postMessage st selfOrigin now (.vobj fs) tgt rr = .ok res) ∧
    (∀ (st : BridgeState) (selfOrigin : String) (now : Int) (fs : Fields)
      (tgt : String) (rr : Bool),
      tgt ≠ "" →
      utf16Length (Value.stringify (.vobj fs)) = st.maxMessageSize + 1 →
      postMessage st selfOrigin now (.vobj fs) tgt rr =
        .error ⟨"MESSAGE_TOO_LARGE", "Message size exceeds maximum allowed size"⟩) ∧
    (initBridge {}).maxMessageSize = 1024 * 1024 := by
  refine ⟨?_, ?_, rfl⟩
  · intro st selfOrigin now fs tgt rr htgt hsz
    have hb : (tgt == "") = false := by simpa using htgt
    have hgt : ¬ (utf16Length (Value.stringify (.vobj fs)) > st.maxMessageSize) := by
      omega
    unfold postMessage
    rw [if_neg (by simp [hb]), if_neg hgt]
    cases rr with
    | true => exact ⟨_, rfl⟩
    | false => exact ⟨_, rfl⟩
  · intro st selfOrigin now fs tgt rr htgt hsz
    have hb : (tgt == "") = false := by simpa using htgt
    have hgt : utf16Length (Value.stringify (.vobj fs)) > st.maxMessageSize := by omega
    unfold postMessage
    rw [if_neg (by simp [hb]), if_pos hgt]

/-- C5 witness: with `maxMessageSize := 7`, the payload `\x7b"a":1\x7d`
(serialized length exactly 7 code units) is accepted; with
`maxMessageSize := 6` the same payload (one unit over) is rejected with
`MESSAGE_TOO_LARGE`. -/
theorem C5_size_boundary_witness :
    (∃ res, postMessage (initBridge { maxMessageSize := 7 }) "https://me.test" 1000
      (.vobj (.cons "a" (.vnum 1) .nil)) "https://t.test" false = .ok res) ∧
    postMessage (initBridge { maxMessageSize := 6 }) "https://me.test" 1000
      (.vobj (.cons "a" (.vnum 1) .nil)) "https://t.test" false =
      .error ⟨"MESSAGE_TOO_LARGE", "Message size exceeds maximum allowed size"⟩ :=
  ⟨C5_size_boundary.1 (initBridge { maxMessageSize := 7 }) "https://me.test" 1000
      (.cons "a" (.vnum 1) .nil) "https://t.test" false (by decide) (by decide),
   C5_size_boundary.2.1 (initBridge { maxMessageSize := 6 }) "https://me.test" 1000
      (.cons "a" (.vnum 1) .nil) "https://t.test" false (by decide) (by decide)⟩

/-- C9: in a successful `postMessage` with `requiresResponse = true`, the
output trace is exactly the registration of the pending entry followed by
the transport send — the entry (with its timer) is written strictly before
the envelope is handed to the transport — and the new message id is in the
post-state's pending table, so a synchronous same-process reply already
finds its entry. -/
theorem C9_register_before_transport
    (st : BridgeState) (selfOrigin : String) (now : Int) (fs : Fields) (tgt : String)
    (htgt : tgt ≠ "")
    (hsz : utf16Length (Value.stringify (.vobj fs)) ≤ st.maxMessageSize) :
    postMessage st selfOrigin now (.vobj fs) tgt true =
      .ok ({ st with messageCounter := st.messageCounter + 1
                     pending := genMessageId now (st.messageCounter + 1) :: st.pending
                     timers := genMessageId now (st.messageCounter + 1) :: st.timers },
           [.register (genMessageId now (st.messageCounter + 1)),
            .send { id := genMessageId now (st.messageCounter + 1)
                    timestamp := .vnum now
                    source := selfOrigin
                    target := tgt
                    payload := .vobj fs
                    requiresResponse := true
                    isResponse := false
                    responseToId := ""
                    status := "" } tgt],
           .promisePending (genMessageId now (st.messageCounter + 1))) ∧
    (genMessageId now (st.messageCounter + 1))
      ∈ (genMessageId now (st.messageCounter + 1)) :: st.pending := by
  have hb : (tgt == "") = false := by simpa using htgt
  have hgt : ¬ (utf16Length (Value.stringify (.vobj fs)) > st.maxMessageSize) := by
    omega
  constructor
  · unfold postMessage
    rw [if_neg (by simp [hb]), if_neg hgt, if_pos rfl]
  · exact List.mem_cons_self _ _

/-- C9 witness: concrete instance with an empty starting table. -/
theorem C9_register_before_transport_witness :
    postMessage (initBridge { maxMessageSize := 100 }) "https://me.test" 1000
      (.vobj (.cons "a" (.vnum 1) .nil)) "https://t.test" true =
      .ok ({ initBridge { maxMessageSize := 100 } with
               messageCounter := 0 + 1
               pending := genMessageId 1000 (0 + 1) :: []
               timers := genMessageId 1000 (0 + 1) :: [] },
           [.register (genMessageId 1000 (0 + 1)),
            .send { id := genMessageId 1000 (0 + 1)
                    timestamp := .vnum 1000
                    source := "https://me.test"
                    target := "https://t.test"
                    payload := .vobj (.cons "a" (.vnum 1) .nil)
                    requiresResponse := true
                    isResponse := false
                    responseToId := ""
                    status := "" } "https://t.test"],
           .promisePending (genMessageId 1000 (0 + 1))) ∧
    genMessageId 1000 (0 + 1) ∈ genMessageId 1000 (0 + 1) :: ([] : List String) :=
  C9_register_before_transport (initBridge { maxMessageSize := 100 })
    "https://me.test" 1000 (.cons "a" (.vnum 1) .nil) "https://t.test"
    (by decide) (by decide)

/-- C6 counterexample: the claim says a message is accepted only if its
age `now - timestamp` lies in `[0, 60000]`.  With the truthy non-numeric
timestamp `"abc"`, the source computes `Date.now() - "abc" = NaN`; both
`NaN < 0` and `NaN > 60000` are false, so `_validateMessage` accepts the
message although its age lies in no interval at all (the timestamp has no
numeric coercion — `toNumber` is `none`). -/
theorem C6_nan_timestamp_counterexample :
    validateMessage 100000
      (some { id := "m1", timestamp := .vstr "abc", source := "https://a.test",
              target := "", payload := .vobj (.cons "x" (.vnum 1) .nil),
              requiresResponse := false, isResponse := false, responseToId := "",
              status := "" }) = true ∧
    Value.toNumber (.vstr "abc") = none := ⟨by decide, by decide⟩

/-- C6 (amended): `_validateMessage` accepts a raw inbound datum exactly
when it is a structured object with truthy `id`, `timestamp`, `source` and
`payload` such that the age test does not fail — that is, whenever the
timestamp coerces to a number `ts`, the age `now - ts` lies in the closed
interval `[0, 60000]` (the hard-coded `maxAge` of 60 000 ms; negative and
stale numeric ages are both rejected), while a truthy timestamp with no
numeric coercion yields `NaN` age, for which both comparisons are false,
and the message is accepted — the replay window is not enforced on such
timestamps.  Every datum failing validation is silently dropped by the
listener: no state change, no output — no handler runs, no response is
sent, and (the step being a total function) no error reaches application
code. -/
theorem C6_validation_and_drop :
    (∀ (now : Int) (data : Option Msg),
      validateMessage now data = true ↔
        ∃ m, data = some m ∧ m.id ≠ "" ∧ m.timestamp.truthy = true ∧
          m.source ≠ "" ∧ m.payload.truthy = true ∧
          (∀ ts : Int, m.timestamp.toNumber = some ts →
            0 ≤ now - ts ∧ now - ts ≤ 60000)) ∧
    (∀ (st : BridgeState) (selfOrigin origin : String) (data : Option Msg) (now : Int),
      validateMessage now data = false →
        handleMessageEvent st selfOrigin origin data now = (st, [])) := by
  constructor
  · intro now data
    cases data with
    | none => simp [validateMessage]
    | some m =>
      cases hts : m.timestamp.toNumber with
      | none =>
        simp only [validateMessage, hts, Bool.and_true, Bool.and_eq_true,
          bne_iff_ne, Option.some.injEq]
        constructor
        · rintro ⟨⟨⟨hid, htr⟩, hsrc⟩, hptr⟩
          exact ⟨m, rfl, hid, htr, hsrc, hptr, fun ts hts' => by
            rw [hts] at hts'; cases hts'⟩
        · rintro ⟨m', heq, hid, htr, hsrc, hptr, -⟩
          cases heq
          exact ⟨⟨⟨hid, htr⟩, hsrc⟩, hptr⟩
      | some ts =>
        simp only [validateMessage, hts, Bool.and_eq_true, bne_iff_ne,
          Bool.not_eq_true', Bool.or_eq_false_iff, decide_eq_false_iff_not,
          not_lt, Option.some.injEq]
        constructor
        · rintro ⟨⟨⟨⟨hid, htr⟩, hsrc⟩, hptr⟩, hage1, hage2⟩
          refine ⟨m, rfl, hid, htr, hsrc, hptr, fun ts' hts' => ?_⟩
          rw [hts] at hts'
          cases hts'
          exact ⟨by omega, by omega⟩
        · rintro ⟨m', heq, hid, htr, hsrc, hptr, hrange⟩
          cases heq
          obtain ⟨h1, h2⟩ := hrange ts hts
          exact ⟨⟨⟨⟨hid, htr⟩, hsrc⟩, hptr⟩, by omega, by omega⟩
  · intro st selfOrigin origin data now hv
    by_cases ho : isOriginAllowed st.allowedOrigins origin = true
    · simp [handleMessageEvent, ho, hv]
    · have ho' : isOriginAllowed st.allowedOrigins origin = false := by
        simpa [Bool.not_eq_true] using ho
      simp [handleMessageEvent, ho']

/-- C6 witness: a stale numeric message (age 70 000 ms > 60 000 ms) from an
allowed origin is dropped by the listener with no state change and no
output. -/
theorem C6_validation_and_drop_witness :
    handleMessageEvent (initBridge { allowedOrigins := ["*"] }) "https://me.test"
      "https://a.test"
      (some { id := "m1", timestamp := .vnum 1, source := "https://a.test",
              target := "", payload := .vobj (.cons "x" (.vnum 1) .nil),
              requiresResponse := true, isResponse := false, responseToId := "",
              status := "" })
      70001 =
      (initBridge { allowedOrigins := ["*"] }, []) :=
  C6_validation_and_drop.2 (initBridge { allowedOrigins := ["*"] })
    "https://me.test" "https://a.test"
    (some { id := "m1", timestamp := .vnum 1, source := "https://a.test",
            target := "", payload := .vobj (.cons "x" (.vnum 1) .nil),
            requiresResponse := true, isResponse := false, responseToId := "",
            status := "" })
    70001 (by decide)

/-- C2: if a valid response envelope (allowed origin, passing validation,
`isResponse` with a truthy `responseToId` equal to a still-pending request
id, status not `error`) arrives before the timeout fires — i.e. while the
entry is still in the table — the listener cancels the timer, removes the
entry, and fulfills that request's promise with exactly the response's
payload. -/
theorem C2_resolve_with_exact_payload (st : BridgeState) (selfOrigin origin : String)
    (m : Msg) (now : Int)
    (ho : isOriginAllowed st.allowedOrigins origin = true)
    (hv : validateMessage now (some m) = true)
    (hresp : m.isResponse = true)
    (hrid : m.responseToId ≠ "")
    (hstatus : m.status ≠ "error")
    (hpend : m.responseToId ∈ st.pending) :
    handleMessageEvent st selfOrigin origin (some m) now =
      ({ st with pending := st.pending.erase m.responseToId
                 timers := st.timers.erase m.responseToId },
       [.settle m.responseToId (.fulfilled m.payload)]) := by
  have hr : (m.isResponse && (m.responseToId != "")) = true := by
    simp [hresp, hrid]
  have hst : (m.status == "error") = false := by simpa using hstatus
  simp [handleMessageEvent, ho, hv, hr, hpend, hst]

/-- C2 witness: with request id `req1` pending, a success response carrying
payload `"P"` fulfills it with exactly that payload and removes the entry
and its timer. -/
theorem C2_resolve_with_exact_payload_witness :
    handleMessageEvent
      { allowedOrigins := ["*"], messageTimeout := 5000, maxMessageSize := 1048576,
        messageHandlers := [], hasGlobalCallback := false,
        pending := ["req1"], timers := ["req1"], messageCounter := 3 }
      "https://me.test" "https://b.test"
      (some { id := "m2", timestamp := .vnum 500, source := "https://b.test", target := "",
              payload := .vstr "P", requiresResponse := false, isResponse := true,
              responseToId := "req1", status := "success" })
      600 =
      ({ allowedOrigins := ["*"], messageTimeout := 5000, maxMessageSize := 1048576,
         messageHandlers := [], hasGlobalCallback := false,
         pending := ["req1"].erase "req1", timers := ["req1"].erase "req1",
         messageCounter := 3 },
       [.settle "req1" (.fulfilled (.vstr "P"))]) :=
  C2_resolve_with_exact_payload
    { allowedOrigins := ["*"], messageTimeout := 5000, maxMessageSize := 1048576,
      messageHandlers := [], hasGlobalCallback := false,
      pending := ["req1"], timers := ["req1"], messageCounter := 3 }
    "https://me.test" "https://b.test"
    { id := "m2", timestamp := .vnum 500, source := "https://b.test", target := "",
      payload := .vstr "P", requiresResponse := false, isResponse := true,
      responseToId := "req1", status := "success" }
    600 (by decide) (by decide) rfl (by decide) (by decide) (by decide)

/-- C1: exactly-once settlement discipline of the correlation table.  Over
any sequence of inbound/timer events from a well-formed state, a given id's
continuation is settled at most once; any settlement that does occur takes
a live entry and removes both the entry and its timer; a response for an id
with no live entry is a silent no-op (state unchanged, no output, and the
step is total so nothing throws); an uncancelled timer firing settles the
entry with kind `RESPONSE_TIMEOUT` and removes it, while a cancelled or
already-fired timer does nothing.  Together with the per-event equations,
the first of the three — resolution, rejection, timeout — to reach a live
entry is the only one that ever fires its continuation. -/
theorem C1_settle_exactly_once (selfOrigin : String) (st : BridgeState)
    (hinv : TableInv st) :
    (∀ (es : List BridgeEvent) (id : String),
      settleCount id (run selfOrigin st es).2 ≤ 1) ∧
    (∀ (e : BridgeEvent) (id : String) (stl : Settlement),
      Output.settle id stl ∈ (step selfOrigin st e).2 →
      st.pending.contains id = true ∧
      (step selfOrigin st e).1.pending.contains id = false ∧
      (step selfOrigin st e).1.timers.contains id = false) ∧
    (∀ (origin : String) (m : Msg) (now : Int),
      m.isResponse = true → m.responseToId ≠ "" → m.responseToId ∉ st.pending →
      handleMessageEvent st selfOrigin origin (some m) now = (st, [])) ∧
    (∀ id : String, id ∉ st.timers →
      step selfOrigin st (.timerFire id) = (st, [])) ∧
    (∀ id : String, id ∈ st.timers →
      step selfOrigin st (.timerFire id) =
        ({ st with pending := st.pending.erase id, timers := st.timers.erase id },
         [.settle id (.rejected "RESPONSE_TIMEOUT"
            (.vstr ("Response for message " ++ id ++ " timed out after "
              ++ toString st.messageTimeout ++ "ms"))
            (.vobj .nil))])) := by
  refine ⟨?_, ?_, ?_, ?_, ?_⟩
  · intro es id
    exact (run_facts selfOrigin id es st hinv).2.2
  · intro e id stl hmem
    exact (step_facts selfOrigin st e id hinv).2.2.2
      (settle_mem_one_le id stl _ hmem)
  · intro origin m now hresp hrid hnp
    by_cases ho : isOriginAllowed st.allowedOrigins origin = true
    · by_cases hv : validateMessage now (some m) = true
      · have hr : (m.isResponse && (m.responseToId != "")) = true := by
          simp [hresp, hrid]
        simp [handleMessageEvent, ho, hv, hr, hnp]
      · have hv' : validateMessage now (some m) = false := by
          simpa [Bool.not_eq_true] using hv
        simp [handleMessageEvent, ho, hv']
    · have ho' : isOriginAllowed st.allowedOrigins origin = false := by
        simpa [Bool.not_eq_true] using ho
      simp [handleMessageEvent, ho']
  · intro id h
    simp [step, h]
  · intro id h
    simp [step, h]

/-- C1 witness: with `req1` pending, a trace in which its timer fires and
then (impossibly, were the timer not consumed) fires again settles the
continuation at most once. -/
theorem C1_settle_exactly_once_witness :
    settleCount "req1" (run "https://me.test"
      { allowedOrigins := ["*"], messageTimeout := 5000, maxMessageSize := 1048576,
        messageHandlers := [], hasGlobalCallback := false,
        pending := ["req1"], timers := ["req1"], messageCounter := 1 }
      [.timerFire "req1", .timerFire "req1"]).2 ≤ 1 :=
  (C1_settle_exactly_once "https://me.test"
    { allowedOrigins := ["*"], messageTimeout := 5000, maxMessageSize := 1048576,
      messageHandlers := [], hasGlobalCallback := false,
      pending := ["req1"], timers := ["req1"], messageCounter := 1 }
    ⟨rfl, by decide⟩).1 [.timerFire "req1", .timerFire "req1"] "req1"

theorem settleCount_map_settle (k : Settlement) (l : List String) (id : String) :
    settleCount id (l.map (fun x => Output.settle x k)) = l.count id := by
  induction l with
  | nil => rfl
  | cons x xs ih =>
    simp only [List.map_cons, settleCount, List.filter_cons, List.count_cons]
    by_cases hb : (x == id) = true
    · rw [if_pos hb, if_pos hb, List.length_cons]
      simp only [settleCount] at ih
      omega
    · rw [if_neg hb, if_neg hb]
      simp only [settleCount] at ih
      omega

/-- C7 (modelled from the spec — the source `SandboxBridge` exposes no
teardown/destroy operation): tearing down the bridge leaves no pending
entry and no live timer, each formerly pending request's continuation is
rejected exactly once with the `BRIDGE_CLOSED` kind, and nothing but those
rejections is emitted — no leaked timers, no dangling continuations. -/
theorem C7_teardown_rejects_all (st : BridgeState) (hinv : TableInv st) :
    (teardown st).1.pending = [] ∧
    (teardown st).1.timers = [] ∧
    (∀ id, id ∈ st.pending → settleCount id (teardown st).2 = 1) ∧
    (∀ o ∈ (teardown st).2, ∃ id, id ∈ st.pending ∧
      o = Output.settle id (.rejected "BRIDGE_CLOSED" (.vstr "Bridge closed")
        (.vobj .nil))) := by
  refine ⟨rfl, rfl, ?_, ?_⟩
  · intro id hid
    show settleCount id (st.pending.map _) = 1
    rw [settleCount_map_settle]
    exact List.count_eq_one_of_mem hinv.2 hid
  · intro o ho
    rcases List.mem_map.mp ho with ⟨id, hid, rfl⟩
    exact ⟨id, hid, rfl⟩

/-- C7 witness: a bridge with two pending requests tears down to an empty
table, with each request rejected exactly once with `BRIDGE_CLOSED`. -/
theorem C7_teardown_rejects_all_witness :
    (teardown
      { allowedOrigins := ["*"], messageTimeout := 5000, maxMessageSize := 1048576,
        messageHandlers := [], hasGlobalCallback := false,
        pending := ["a", "b"], timers := ["a", "b"], messageCounter := 2 }).1.pending
      = [] ∧
    settleCount "a" (teardown
      { allowedOrigins := ["*"], messageTimeout := 5000, maxMessageSize := 1048576,
        messageHandlers := [], hasGlobalCallback := false,
        pending := ["a", "b"], timers := ["a", "b"], messageCounter := 2 }).2 = 1 :=
  ⟨(C7_teardown_rejects_all
      { allowedOrigins := ["*"], messageTimeout := 5000, maxMessageSize := 1048576,
        messageHandlers := [], hasGlobalCallback := false,
        pending := ["a", "b"], timers := ["a", "b"], messageCounter := 2 }
      ⟨rfl, by decide⟩).1,
   (C7_teardown_rejects_all
      { allowedOrigins := ["*"], messageTimeout := 5000, maxMessageSize := 1048576,
        messageHandlers := [], hasGlobalCallback := false,
        pending := ["a", "b"], timers := ["a", "b"], messageCounter := 2 }
      ⟨rfl, by decide⟩).2.2.1 "a" (by decide)⟩

/-- C8 counterexample: the claim says that when `requiresResponse` is false
a failing handler is "only logged".  With handler `ping` returning a
rejecting deferred value and `requiresResponse = false`, the code attaches
no `.then/.catch` chain (lines 766-781 run only under
`message.requiresResponse`), so nothing is logged, nothing is sent, and the
rejection is left as an unhandled promise rejection — the trace contains
`unhandledRejection` and no `logError`. -/
theorem C8_rejection_counterexample :
    handleMessageEvent
      { allowedOrigins := ["*"], messageTimeout := 5000, maxMessageSize := 1048576,
        messageHandlers := [("ping", .rejects "boom" .vnull)],
        hasGlobalCallback := false, pending := [], timers := [], messageCounter := 0 }
      "https://me.test" "https://a.test"
      (some { id := "m1", timestamp := .vnum 100, source := "https://a.test", target := "",
              payload := .vobj (.cons "type" (.vstr "ping") .nil),
              requiresResponse := false, isResponse := false, responseToId := "",
              status := "" })
      200 =
      ({ allowedOrigins := ["*"], messageTimeout := 5000, maxMessageSize := 1048576,
         messageHandlers := [("ping", .rejects "boom" .vnull)],
         hasGlobalCallback := false, pending := [], timers := [], messageCounter := 0 },
       [Output.callHandler "ping", Output.unhandledRejection]) ∧
    Output.logError ∉ [Output.callHandler "ping", Output.unhandledRejection] :=
  ⟨rfl, by simp⟩

/-- C8 (amended): for an inbound non-response message whose type-specific
handler fails — by throwing synchronously or by returning a rejecting
deferred value — if `requiresResponse` is true the bridge sends back to the
message's source a response envelope with status `error` whose payload
carries the failure's message and attached details (a synchronous throw is
additionally logged by the catch block); if `requiresResponse` is false, a
synchronous throw is only logged and never sent anywhere, while a rejecting
deferred value is neither logged nor sent — no continuation is attached to
it, leaving an unhandled promise rejection. -/
theorem C8_handler_failure_reporting (st : BridgeState) (selfOrigin origin : String)
    (m : Msg) (now : Int) (t : String) (emsg : String) (details : Value)
    (ho : isOriginAllowed st.allowedOrigins origin = true)
    (hv : validateMessage now (some m) = true)
    (hnr : m.isResponse = false)
    (hty : m.payload.getField "type" = .vstr t)
    (ht : t ≠ "") :
    (st.messageHandlers.lookup t = some (.throws emsg details) →
      m.requiresResponse = true →
      handleMessageEvent st selfOrigin origin (some m) now =
        ({ st with messageCounter := st.messageCounter + 1 },
         [.callHandler t, .logError,
          .send { id := genMessageId now (st.messageCounter + 1), timestamp := .vnum now,
                  source := selfOrigin, target := "",
                  payload := errorResponsePayload emsg details,
                  requiresResponse := false, isResponse := true,
                  responseToId := m.id, status := "error" } m.source])) ∧
    (st.messageHandlers.lookup t = some (.throws emsg details) →
      m.requiresResponse = false →
      handleMessageEvent st selfOrigin origin (some m) now =
        (st, [.callHandler t, .logError])) ∧
    (st.messageHandlers.lookup t = some (.rejects emsg details) →
      m.requiresResponse = true →
      handleMessageEvent st selfOrigin origin (some m) now =
        ({ st with messageCounter := st.messageCounter + 1 },
         [.callHandler t,
          .send { id := genMessageId now (st.messageCounter + 1), timestamp := .vnum now,
                  source := selfOrigin, target := "",
                  payload := errorResponsePayload emsg details,
                  requiresResponse := false, isResponse := true,
                  responseToId := m.id, status := "error" } m.source])) ∧
    (st.messageHandlers.lookup t = some (.rejects emsg details) →
      m.requiresResponse = false →
      handleMessageEvent st selfOrigin origin (some m) now =
        (st, [.callHandler t, .unhandledRejection])) := by
  have hr' : (m.isResponse && (m.responseToId != "")) = false := by
    simp [hnr]
  have hsrc : (m.source == "") = false := by
    have hv' := hv
    simp only [validateMessage, Bool.and_eq_true] at hv'
    obtain ⟨⟨⟨⟨_, _⟩, hsrcb⟩, _⟩, _⟩ := hv'
    rw [bne_iff_ne] at hsrcb
    simpa using hsrcb
  refine ⟨?_, ?_, ?_, ?_⟩ <;> intro hlk hrr <;>
    simp [handleMessageEvent, ho, hv, hr', dispatch, hty, ht, hlk, runHandler,
      hrr, respondToMessage, hsrc]

/-- C8 witness: a throwing handler with `requiresResponse = true` — the
failure is logged and sent back to the source as a status-`error` response
envelope carrying the message and details. -/
theorem C8_handler_failure_reporting_witness :
    handleMessageEvent
      { allowedOrigins := ["*"], messageTimeout := 5000, maxMessageSize := 1048576,
        messageHandlers := [("ping", .throws "boom" .vnull)],
        hasGlobalCallback := false, pending := [], timers := [], messageCounter := 0 }
      "https://me.test" "https://a.test"
      (some { id := "m1", timestamp := .vnum 100, source := "https://a.test", target := "",
              payload := .vobj (.cons "type" (.vstr "ping") .nil),
              requiresResponse := true, isResponse := false, responseToId := "",
              status := "" })
      200 =
      ({ allowedOrigins := ["*"], messageTimeout := 5000, maxMessageSize := 1048576,
         messageHandlers := [("ping", .throws "boom" .vnull)],
         hasGlobalCallback := false, pending := [], timers := [],
         messageCounter := 0 + 1 },
       [.callHandler "ping", .logError,
        .send { id := genMessageId 200 (0 + 1), timestamp := .vnum 200,
                source := "https://me.test", target := "",
                payload := errorResponsePayload "boom" .vnull,
                requiresResponse := false, isResponse := true,
                responseToId := "m1", status := "error" } "https://a.test"]) :=
  (C8_handler_failure_reporting
    { allowedOrigins := ["*"], messageTimeout := 5000, maxMessageSize := 1048576,
      messageHandlers := [("ping", .throws "boom" .vnull)],
      hasGlobalCallback := false, pending := [], timers := [], messageCounter := 0 }
    "https://me.test" "https://a.test"
    { id := "m1", timestamp := .vnum 100, source := "https://a.test", target := "",
      payload := .vobj (.cons "type" (.vstr "ping") .nil),
      requiresResponse := true, isResponse := false, responseToId := "", status := "" }
    200 "ping" "boom" .vnull
    (by decide) (by decide) rfl rfl (by decide)).1 rfl rfl
